import Mathlib

/-!
A verification development for the controller runtime of the breadboard
repository: the SimpleController engine (src/source/SimpleController.js),
the transactional binding layer of controlledByProps (the defensive
variant in part_000, lines 220-402), the responsive dual mode layout
controller (part_002 and src/source/ResponsiveDualModeController.js), and
the setup phase of instantiateDefaultControllers (part_000, lines 88-103).

State is threaded explicitly; listener callbacks are modelled as an event
trace tagged with the position identity of each subscriber record.
-/

namespace Breadboard

/-- Observable events a controller emits to its subscribers. One event is
recorded per subscriber record per callback invocation, mirroring the
loops over listeners in SimpleController. -/
inductive Event (O : Type) where
  | txStart (listener : Nat)
  | txEnd (listener : Nat)
  | change (listener : Nat) (out : O)
deriving DecidableEq

/-- Returns true on change events only. -/
def Event.isChange {O : Type} : Event O → Bool
  | Event.change _ _ => true
  | _ => false

/-- The mutable fields of a SimpleController instance, as initialised by the
constructor (SimpleController.js lines 5-23). The errors field counts
console.error diagnostics. -/
structure Ctrl (E S : Type) where
  env : E
  isDestroyed : Bool
  listeners : List Nat
  state : S
  runningActions : List String
  runningEnv : Bool
  transactionLevel : Nat
  notificationIsQueued : Bool
  errors : Nat
deriving DecidableEq

/-- The class level configuration of a SimpleController subclass: the
initial state and the overridable hooks doesEnvDiffer, doesStateDiffer,
output and envWillUpdate (SimpleController.js lines 52-66 give the
defaults; envWillUpdate, when present, is modelled as the sequence of
setState arguments it performs, computed from the new env and the state
at entry). -/
structure CtrlClass (E S O : Type) where
  initialState : S
  doesEnvDiffer : E → E → Bool
  doesStateDiffer : S → S → Bool
  output : E → S → O
  envWillUpdate : Option (E → S → List S)

variable {E S O : Type}

/-- Constructor of SimpleController (lines 5-23): stores env, copies the
class initial state, and starts quiescent. -/
def mkCtrl (cls : CtrlClass E S O) (env : E) : Ctrl E S :=
  ⟨env, false, [], cls.initialState, [], false, 0, false, 0⟩

/-- Records one console.error diagnostic. -/
def logError (c : Ctrl E S) : Ctrl E S := { c with errors := c.errors + 1 }

/-- Translation of isRunning (lines 72-77): a controller is running while
envWillUpdate is executing or any action is on the stack. -/
def isRunning (c : Ctrl E S) : Bool := c.runningEnv || !c.runningActions.isEmpty

/-- Translation of doStateUpdate (lines 119-124): replace the state when
doesStateDiffer reports a difference, returning whether it did. -/
def doStateUpdate (cls : CtrlClass E S O) (c : Ctrl E S) (s : S) : Ctrl E S × Bool :=
  if cls.doesStateDiffer c.state s then ({ c with state := s }, true) else (c, false)

/-- Translation of doIncreaseTransactionLevel (lines 139-145): on the
transition to level 1 every listener gets transactionStart. -/
def doIncrease (c : Ctrl E S) : Ctrl E S × List (Event O) :=
  let c1 : Ctrl E S := { c with transactionLevel := c.transactionLevel + 1 }
  if c1.transactionLevel = 1 then (c1, c1.listeners.map Event.txStart) else (c1, [])

/-- Translation of doDecreaseTransactionLevel (lines 147-153): on the
transition to level 0 every listener gets transactionEnd. -/
def doDecrease (c : Ctrl E S) : Ctrl E S × List (Event O) :=
  let c1 : Ctrl E S := { c with transactionLevel := c.transactionLevel - 1 }
  if c1.transactionLevel = 0 then (c1, c1.listeners.map Event.txEnd) else (c1, [])

/-- Translation of doNotify (lines 126-137): while running, queue the
notification; otherwise compute the output once and deliver it to every
listener in subscription order. -/
def doNotify (cls : CtrlClass E S O) (c : Ctrl E S) : Ctrl E S × List (Event O) :=
  if isRunning c then ({ c with notificationIsQueued := true }, [])
  else ({ c with notificationIsQueued := false },
        c.listeners.map (fun l => Event.change l (cls.output c.env c.state)))

/-- Translation of setState (lines 34-45): rejected with a diagnostic when
destroyed; otherwise, when the state differs, bracket a notification in a
transaction. -/
def setStateFn (cls : CtrlClass E S O) (c : Ctrl E S) (s : S) : Ctrl E S × List (Event O) :=
  if c.isDestroyed then (logError c, [])
  else
    let p := doStateUpdate cls c s
    if p.2 then
      let q1 : Ctrl E S × List (Event O) := doIncrease p.1
      let q2 := doNotify cls q1.1
      let q3 : Ctrl E S × List (Event O) := doDecrease q2.1
      (q3.1, q1.2 ++ q2.2 ++ q3.2)
    else (p.1, [])

/-- Runs the setState calls performed by an envWillUpdate hook, in order,
accumulating the controller state and the emitted events. -/
def runEnvHook (cls : CtrlClass E S O) :
    List S → Ctrl E S × List (Event O) → Ctrl E S × List (Event O)
  | [], p => p
  | s :: rest, p =>
    let q := setStateFn cls p.1 s
    runEnvHook cls rest (q.1, p.2 ++ q.2)

/-- Result of doEnvUpdate: the updated controller, the events emitted by the
envWillUpdate hook, and the didEnvChange and didStateChange flags. -/
structure EnvUpdateResult (E S O : Type) where
  ctrl : Ctrl E S
  events : List (Event O)
  didEnvChange : Bool
  didStateChange : Bool

/-- Translation of doEnvUpdate (lines 101-117): only when doesEnvDiffer
reports a difference is the hook run (guarded by runningEnv) and the env
field replaced; otherwise the env is left untouched. -/
def doEnvUpdate (cls : CtrlClass E S O) (c : Ctrl E S) (e : E) : EnvUpdateResult E S O :=
  if cls.doesEnvDiffer c.env e then
    match cls.envWillUpdate with
    | some hook =>
      if c.runningEnv then ⟨{ c with env := e }, [], true, false⟩
      else
        let oldState := c.state
        let p := runEnvHook cls (hook e c.state) ({ c with runningEnv := true }, [])
        let c2 : Ctrl E S := { p.1 with runningEnv := false }
        ⟨{ c2 with env := e }, p.2, true, cls.doesStateDiffer c2.state oldState⟩
    | none => ⟨{ c with env := e }, [], true, false⟩
  else ⟨c, [], false, false⟩

/-- Translation of the public set (lines 160-172): rejected with a
diagnostic when destroyed; otherwise a transaction bracket around the env
update, notifying when the env changed. -/
def setOp (cls : CtrlClass E S O) (c : Ctrl E S) (e : E) : Ctrl E S × List (Event O) :=
  if c.isDestroyed then (logError c, [])
  else
    let p1 : Ctrl E S × List (Event O) := doIncrease c
    let r := doEnvUpdate cls p1.1 e
    let p3 : Ctrl E S × List (Event O) :=
      if r.didEnvChange then doNotify cls r.ctrl else (r.ctrl, [])
    let p4 : Ctrl E S × List (Event O) := doDecrease p3.1
    (p4.1, p1.2 ++ r.events ++ p3.2 ++ p4.2)

/-- Translation of the public get (lines 174-176): the output hook applied
to the stored env and state; no destroyed check, no diagnostics. -/
def getOp (cls : CtrlClass E S O) (c : Ctrl E S) : O := cls.output c.env c.state

/-- Translation of the public subscribe (lines 178-187): appends a
subscriber record; no destroyed check, no diagnostics. -/
def subscribeOp (c : Ctrl E S) (listener : Nat) : Ctrl E S :=
  { c with listeners := c.listeners ++ [listener] }

/-- Translation of the public destroy (lines 189-192): clears the listener
array and sets the destroyed flag; no diagnostics. -/
def destroyOp (c : Ctrl E S) : Ctrl E S :=
  { c with listeners := [], isDestroyed := true }

/-- Synchronous controller programs: the code that can run against a
controller from an action body or from the top level, built from setState
calls, set calls and named action invocations. -/
inductive Cmd (E S : Type) where
  | skip
  | seq (a b : Cmd E S)
  | setState (s : S)
  | set (e : E)
  | action (key : String) (body : Cmd E S)

/-- Runs a controller program. The action case is the translation of
doAction (lines 79-99): destroyed and re-entrant invocations are rejected
with a diagnostic; otherwise the body runs inside a transaction with the
key marked running, and a queued notification is delivered after the body
completes. -/
def runCmd (cls : CtrlClass E S O) : Cmd E S → Ctrl E S → Ctrl E S × List (Event O)
  | Cmd.skip, c => (c, [])
  | Cmd.seq a b, c =>
    let p := runCmd cls a c
    let q := runCmd cls b p.1
    (q.1, p.2 ++ q.2)
  | Cmd.setState s, c => setStateFn cls c s
  | Cmd.set e, c => setOp cls c e
  | Cmd.action k body, c =>
    if c.isDestroyed then (logError c, [])
    else if k ∈ c.runningActions then (logError c, [])
    else
      let p1 : Ctrl E S × List (Event O) := doIncrease c
      let c2 : Ctrl E S := { p1.1 with runningActions := k :: p1.1.runningActions }
      let p2 := runCmd cls body c2
      let c3 : Ctrl E S := { p2.1 with runningActions := p2.1.runningActions.erase k }
      let p3 : Ctrl E S × List (Event O) :=
        if c3.notificationIsQueued then doNotify cls c3 else (c3, [])
      let p4 : Ctrl E S × List (Event O) := doDecrease p3.1
      (p4.1, p1.2 ++ p2.2 ++ p3.2 ++ p4.2)

/-- True for the three public entry points of the engine, the forms a
caller can invoke from outside any transaction. -/
def Cmd.isEntry : Cmd E S → Bool
  | Cmd.setState _ => true
  | Cmd.set _ => true
  | Cmd.action _ _ => true
  | _ => false

/-- True when a program performs at least one setState or set call at its
own level, outside any nested action invocation. -/
def Cmd.mutatesDirectly : Cmd E S → Bool
  | Cmd.setState _ => true
  | Cmd.set _ => true
  | Cmd.seq a b => a.mutatesDirectly || b.mutatesDirectly
  | _ => false

/-! ## The transactional binding layer

Translation of the defensive ControlledByProps variant in part_000
(lines 220-402): the per host ledger and the three controller callbacks.
The host update that React schedules from setState is modelled as
committing synchronously, after which the completion callback runs. -/

/-- The two protocol violations handleChange can raise (lines 345-358). -/
inductive HostError where
  | changeOutsideTransaction
  | changeDuringFlush
deriving DecidableEq

/-- Events observable from the host side: a coalesced flush of the outputs,
and the invocation of a queued release token. -/
inductive HEvent where
  | flush
  | unlock (tok : Nat)
deriving DecidableEq

/-- The transaction ledger of one bound host (constructor, lines 222-245),
together with the cached controller outputs keyed by prop name. -/
structure Host (O : Type) where
  transactionLevel : Nat
  flushLevel : Nat
  unlockQueue : List Nat
  changesExist : Bool
  outputs : String → Option O

/-- Pointwise update of the cached outputs, as performed by the setState
call in handleChange. -/
def updateOutput (f : String → Option O) (k : String) (o : O) : String → Option O :=
  fun k2 => if k2 = k then some o else f k2

/-- Translation of handleChange (lines 345-358): a protocol violation is
thrown at transaction level zero or while flushing; otherwise the new
output is recorded and a change marked pending. -/
def handleChange (h : Host O) (k : String) (o : O) : Except HostError (Host O) :=
  if h.transactionLevel = 0 then Except.error HostError.changeOutsideTransaction
  else if h.flushLevel ≠ 0 then Except.error HostError.changeDuringFlush
  else Except.ok { h with changesExist := true, outputs := updateOutput h.outputs k o }

/-- Translation of handleTransactionStart (lines 360-373): increment the
transaction level, and also the flush level when a flush is in progress. -/
def handleTransactionStart (h : Host O) : Host O :=
  let h1 : Host O := { h with transactionLevel := h.transactionLevel + 1 }
  if h1.flushLevel > 0 then { h1 with flushLevel := h1.flushLevel + 1 } else h1

/-- Translation of handleTransactionEnd (lines 375-395): unwind the flush
level if needed, queue the release token, decrement the transaction
level, and when it reaches zero with a pending change perform the single
coalesced flush, after which every queued token is released in FIFO order
and the queue cleared. -/
def handleTransactionEnd (h : Host O) (unlock : Nat) : Host O × List HEvent :=
  let h1 : Host O := if h.flushLevel > 0 then { h with flushLevel := h.flushLevel - 1 } else h
  let h2 : Host O := { h1 with unlockQueue := h1.unlockQueue ++ [unlock] }
  let h3 : Host O := { h2 with transactionLevel := h2.transactionLevel - 1 }
  if h3.transactionLevel = 0 ∧ h3.changesExist then
    let h4 : Host O := { h3 with flushLevel := h3.flushLevel + 1, changesExist := false }
    let h5 : Host O := { h4 with flushLevel := h4.flushLevel - 1 }
    ({ h5 with unlockQueue := [] }, HEvent.flush :: h5.unlockQueue.map HEvent.unlock)
  else (h3, [])

/-- One controller side stimulus observed by a bound host. -/
inductive HostStep (O : Type) where
  | txStart
  | change (key : String) (out : O)
  | txEnd (tok : Nat)

/-- Feeds a sequence of controller callbacks into a host, collecting the
host side events, or surfacing the first protocol violation. -/
def runHost (h : Host O) : List (HostStep O) → Except HostError (Host O × List HEvent)
  | [] => Except.ok (h, [])
  | HostStep.txStart :: rest => runHost (handleTransactionStart h) rest
  | HostStep.change k o :: rest =>
    match handleChange h k o with
    | Except.error e => Except.error e
    | Except.ok h2 => runHost h2 rest
  | HostStep.txEnd tok :: rest =>
    let p := handleTransactionEnd h tok
    match runHost p.1 rest with
    | Except.error e => Except.error e
    | Except.ok q => Except.ok (q.1, p.2 ++ q.2)

/-- The events produced by a run of the host, when no violation occurs. -/
def runHostEvents (h : Host O) (steps : List (HostStep O)) : Option (List HEvent) :=
  match runHost h steps with
  | Except.ok p => some p.2
  | Except.error _ => none

/-- The final unlock queue of a run of the host, when no violation occurs. -/
def runHostQueue (h : Host O) (steps : List (HostStep O)) : Option (List Nat) :=
  match runHost h steps with
  | Except.ok p => some p.1.unlockQueue
  | Except.error _ => none

/-! ## The responsive dual mode layout controller

Translation of the mode computation shared by part_002 recalc (lines
77-96) and ResponsiveDualModeController.js output (lines 51-65), and of
the modesAreEqual guard (part_002 lines 4-6). JS object keys are modelled
as a duplicate free list in insertion order. -/

/-- Inserting a key into a JS object used as a set: a repeated key is kept
once, in its original position. -/
def objInsert (keys : List String) (k : String) : List String :=
  if k ∈ keys then keys else keys ++ [k]

/-- The mode key set computed by recalc and by output: the primary mode
alone when the width is known and fits a single pane, otherwise the
source pane plus the primary mode, with the default secondary substituted
when the primary already is the source pane. -/
def computeModes (width : Option Int) (maxSinglePaneWidth : Int)
    (primary defaultSecondary : String) : List String :=
  match width with
  | some w =>
    if w ≤ maxSinglePaneWidth then objInsert [] primary
    else objInsert (objInsert [] ("source"))
        (if primary = ("source") then defaultSecondary else primary)
  | none => objInsert (objInsert [] ("source"))
      (if primary = ("source") then defaultSecondary else primary)

/-- Sorts the keys and joins them with commas, as Object.keys(m).sort()
followed by join does. -/
def sortedJoin (keys : List String) : String :=
  String.intercalate (",") (List.insertionSort (fun a b => a ≤ b) keys)

/-- Translation of modesAreEqual (part_002 lines 4-6). -/
def modesAreEqual (oldModes newModes : List String) : Bool :=
  sortedJoin oldModes == sortedJoin newModes

/-- The fields of the SimpleController based responsive controller that
recalc reads and writes. -/
structure RDMC where
  width : Option Int
  maxSinglePaneWidth : Int
  primary : String
  defaultSecondary : String
  modes : List String

/-- Translation of recalc (part_002 lines 77-96): recompute the mode key
set and, only when it differs from the stored one under modesAreEqual,
store it and notify the listeners (the boolean of the result). -/
def recalc (c : RDMC) : RDMC × Bool :=
  let newModes := computeModes c.width c.maxSinglePaneWidth c.primary c.defaultSecondary
  if modesAreEqual newModes c.modes then (c, false)
  else ({ c with modes := newModes }, true)

/-! ## Setup phase of instantiateDefaultControllers

Translation of part_000 lines 88-103. The zero key branch calls
console.warning; the console object is the standard platform Console,
which exposes warn but no warning method (the repository itself uses
console.warn at part_000 line 322), so that call is modelled against the
standard method list. A class is abstracted to whether it extends
Controller. -/

/-- Methods of the standard JS console object: warn is present, warning is
not. -/
def consoleMethods : List String :=
  [("assert"), ("clear"), ("count"), ("debug"), ("dir"), ("error"), ("group"),
   ("info"), ("log"), ("table"), ("time"), ("trace"), ("warn")]

/-- Invoking a method on the standard console object: calling an absent
method throws a TypeError. -/
def callConsoleMethod (method : String) : Except String Unit :=
  if method ∈ consoleMethods then Except.ok ()
  else Except.error (("TypeError: console.") ++ method ++ (" is not a function"))

/-- The validation loop of instantiateDefaultControllers (lines 99-103):
every declared key must map to a class extending Controller. -/
def validateControllerClasses : List (String × Bool) → Except String Unit
  | [] => Except.ok ()
  | kv :: rest =>
    if kv.2 then validateControllerClasses rest
    else Except.error
      (("instantiateDefaultControllers: expected a class that extends Controller for key ") ++ kv.1)

/-- The setup phase of instantiateDefaultControllers (lines 88-103): with
zero declared keys it calls console.warning, then validates every
declared class. -/
def instantiateDefaultControllersSetup (classes : List (String × Bool)) : Except String Unit :=
  match (if classes.length = 0 then callConsoleMethod ("warning") else Except.ok ()) with
  | Except.error e => Except.error e
  | Except.ok _ => validateControllerClasses classes

/-- A nested operation leaves the transaction level, the running sets, the
listener list and the destroyed flag untouched. -/
def InnerFrame (c d : Ctrl E S) : Prop :=
  d.transactionLevel = c.transactionLevel ∧ d.runningActions = c.runningActions ∧
  d.runningEnv = c.runningEnv ∧ d.listeners = c.listeners ∧ d.isDestroyed = c.isDestroyed

/-! ## Helper lemmas on the engine -/

theorem doIncrease_fst (c : Ctrl E S) :
    (doIncrease (O := O) c).1 = { c with transactionLevel := c.transactionLevel + 1 } := by
  obtain ⟨env, d, L, st, ra, re, lvl, q, err⟩ := c
  simp only [doIncrease]
  split <;> rfl

theorem doDecrease_fst (c : Ctrl E S) :
    (doDecrease (O := O) c).1 = { c with transactionLevel := c.transactionLevel - 1 } := by
  obtain ⟨env, d, L, st, ra, re, lvl, q, err⟩ := c
  simp only [doDecrease]
  split <;> rfl

theorem doNotify_fst (cls : CtrlClass E S O) (c : Ctrl E S) :
    (doNotify cls c).1 = { c with notificationIsQueued := isRunning c } := by
  obtain ⟨env, d, L, st, ra, re, lvl, q, err⟩ := c
  simp only [doNotify]
  split <;> simp_all

theorem InnerFrame.refl (c : Ctrl E S) : InnerFrame c c :=
  ⟨rfl, rfl, rfl, rfl, rfl⟩

theorem InnerFrame.trans {a b c : Ctrl E S} (h1 : InnerFrame a b) (h2 : InnerFrame b c) :
    InnerFrame a c := by
  obtain ⟨p1, p2, p3, p4, p5⟩ := h1
  obtain ⟨q1, q2, q3, q4, q5⟩ := h2
  exact ⟨q1.trans p1, q2.trans p2, q3.trans p3, q4.trans p4, q5.trans p5⟩

theorem setStateFn_inner (cls : CtrlClass E S O) (c : Ctrl E S) (s : S)
    (hRun : isRunning c = true) (hLvl : 1 ≤ c.transactionLevel) :
    (setStateFn cls c s).2 = [] ∧ InnerFrame c (setStateFn cls c s).1 := by
  obtain ⟨env, d, L, st, ra, re, lvl, q, err⟩ := c
  simp only [isRunning, Bool.or_eq_true, Bool.not_eq_true', List.isEmpty_eq_false] at hRun
  simp only [] at hLvl
  simp only [setStateFn, doStateUpdate, doIncrease, doNotify, doDecrease, isRunning, logError,
    InnerFrame]
  split_ifs <;> simp_all

theorem runEnvHook_inner (cls : CtrlClass E S O) (ss : List S) :
    ∀ (c : Ctrl E S) (t : List (Event O)), isRunning c = true → 1 ≤ c.transactionLevel →
      (runEnvHook cls ss (c, t)).2 = t ∧ InnerFrame c (runEnvHook cls ss (c, t)).1 := by
  induction ss with
  | nil => exact fun c t _ _ => ⟨rfl, InnerFrame.refl c⟩
  | cons s rest ih =>
    intro c t hRun hLvl
    obtain ⟨hemp, hframe⟩ := setStateFn_inner cls c s hRun hLvl
    obtain ⟨f1, f2, f3, f4, f5⟩ := hframe
    have hRun2 : isRunning (setStateFn cls c s).1 = true := by
      simpa [isRunning, f2, f3] using hRun
    have hLvl2 : 1 ≤ (setStateFn cls c s).1.transactionLevel := by omega
    obtain ⟨e1, e2⟩ := ih (setStateFn cls c s).1 (t ++ (setStateFn cls c s).2) hRun2 hLvl2
    have hunf : runEnvHook cls (s :: rest) (c, t)
        = runEnvHook cls rest ((setStateFn cls c s).1, t ++ (setStateFn cls c s).2) := rfl
    rw [hunf]
    exact ⟨by rw [e1, hemp]; simp, InnerFrame.trans ⟨f1, f2, f3, f4, f5⟩ e2⟩

theorem doDecrease_queued (c : Ctrl E S) :
    (doDecrease (O := O) c).1.notificationIsQueued = c.notificationIsQueued := by
  rw [doDecrease_fst]

theorem doNotify_queued (cls : CtrlClass E S O) (c : Ctrl E S) :
    (doNotify cls c).1.notificationIsQueued = isRunning c := by
  rw [doNotify_fst]

theorem doIncrease_queued (c : Ctrl E S) :
    (doIncrease (O := O) c).1.notificationIsQueued = c.notificationIsQueued := by
  rw [doIncrease_fst]

theorem doIncrease_snd_of_ne_zero (c : Ctrl E S) (h : c.transactionLevel ≠ 0) :
    (doIncrease (O := O) c).2 = [] := by
  obtain ⟨env, d, L, st, ra, re, lvl, q, err⟩ := c
  have h0 : lvl ≠ 0 := h
  simp only [doIncrease]
  split
  next h2 =>
    have h3 : lvl + 1 = 1 := h2
    omega
  next => rfl

theorem doDecrease_snd_of_two_le (c : Ctrl E S) (h : 2 ≤ c.transactionLevel) :
    (doDecrease (O := O) c).2 = [] := by
  obtain ⟨env, d, L, st, ra, re, lvl, q, err⟩ := c
  have h0 : 2 ≤ lvl := h
  simp only [doDecrease]
  split
  next h2 =>
    have h3 : lvl - 1 = 0 := h2
    omega
  next => rfl

theorem doNotify_snd_of_running (cls : CtrlClass E S O) (c : Ctrl E S)
    (h : isRunning c = true) : (doNotify cls c).2 = [] := by
  simp [doNotify, h]

theorem doEnvUpdate_inner (cls : CtrlClass E S O) (c : Ctrl E S) (e : E)
    (hLvl : 1 ≤ c.transactionLevel) :
    (doEnvUpdate cls c e).events = [] ∧ InnerFrame c (doEnvUpdate cls c e).ctrl := by
  rcases hw : cls.envWillUpdate with _ | hook
  · simp only [doEnvUpdate, hw]
    split
    next => exact ⟨rfl, ⟨rfl, rfl, rfl, rfl, rfl⟩⟩
    next => exact ⟨rfl, InnerFrame.refl c⟩
  · simp only [doEnvUpdate, hw]
    split
    next =>
      split
      next hre => exact ⟨rfl, ⟨rfl, rfl, rfl, rfl, rfl⟩⟩
      next hre =>
        have hre2 : c.runningEnv = false := by simpa using hre
        obtain ⟨he, f1, f2, f3, f4, f5⟩ :=
          runEnvHook_inner cls (hook e c.state) { c with runningEnv := true } []
            (by simp [isRunning]) (by simpa using hLvl)
        refine ⟨by simpa using he, ?_, ?_, ?_, ?_, ?_⟩ <;> simp_all
    next => exact ⟨rfl, InnerFrame.refl c⟩

theorem setOp_inner (cls : CtrlClass E S O) (c : Ctrl E S) (e : E)
    (hRA : c.runningActions ≠ []) (hLvl : 1 ≤ c.transactionLevel) :
    (setOp cls c e).2 = [] ∧ InnerFrame c (setOp cls c e).1 := by
  simp only [setOp]
  split
  next => exact ⟨rfl, ⟨rfl, rfl, rfl, rfl, rfl⟩⟩
  next =>
    have hinc := doIncrease_fst (O := O) c
    have hincs := doIncrease_snd_of_ne_zero (O := O) c (by omega)
    have hup := doEnvUpdate_inner cls (doIncrease (O := O) c).1 e
      (by rw [hinc]; simp)
    obtain ⟨hue, g1, g2, g3, g4, g5⟩ := hup
    have hrun : isRunning (doEnvUpdate cls (doIncrease (O := O) c).1 e).ctrl = true := by
      rw [isRunning, g2, hinc]
      simpa [List.isEmpty_eq_false] using Or.inr hRA
    have hlvl3 : (doEnvUpdate cls (doIncrease (O := O) c).1 e).ctrl.transactionLevel
        = c.transactionLevel + 1 := by rw [g1, hinc]
    constructor
    · rw [hincs, hue]
      split
      next =>
        rw [doNotify_snd_of_running cls _ hrun,
          doDecrease_snd_of_two_le _ (by simp [doNotify_fst, hlvl3]; omega)]
        simp
      next =>
        rw [doDecrease_snd_of_two_le _ (by simp [hlvl3]; omega)]
        simp
    · split
      next =>
        refine ⟨?_, ?_, ?_, ?_, ?_⟩ <;>
          (simp only [doDecrease_fst, doNotify_fst, g1, g2, g3, g4, g5]; simp [hinc])
      next =>
        refine ⟨?_, ?_, ?_, ?_, ?_⟩ <;>
          (simp only [doDecrease_fst, g1, g2, g3, g4, g5]; simp [hinc])

theorem isRunning_of_ra (c : Ctrl E S) (h : c.runningActions ≠ []) : isRunning c = true := by
  unfold isRunning
  cases hra : c.runningActions with
  | nil => exact absurd hra h
  | cons a l => simp [hra]

/-- Any program executed while an action is on the stack, at a positive
transaction level, emits no events and restores the bookkeeping fields:
nested work is silent and coalesced by the queued notification flag. -/
theorem runCmd_inner (cls : CtrlClass E S O) (cmd : Cmd E S) :
    ∀ (c : Ctrl E S), c.runningActions ≠ [] → 1 ≤ c.transactionLevel →
      (runCmd cls cmd c).2 = [] ∧ InnerFrame c (runCmd cls cmd c).1 := by
  induction cmd with
  | skip => exact fun c _ _ => ⟨rfl, InnerFrame.refl c⟩
  | seq a b iha ihb =>
    intro c hRA hLvl
    obtain ⟨ea, a1, a2, a3, a4, a5⟩ := iha c hRA hLvl
    obtain ⟨eb, fb⟩ := ihb (runCmd cls a c).1 (by rw [a2]; exact hRA) (by rw [a1]; exact hLvl)
    have hunf : runCmd cls (Cmd.seq a b) c
        = ((runCmd cls b (runCmd cls a c).1).1,
           (runCmd cls a c).2 ++ (runCmd cls b (runCmd cls a c).1).2) := rfl
    rw [hunf]
    exact ⟨by simp [ea, eb], InnerFrame.trans ⟨a1, a2, a3, a4, a5⟩ fb⟩
  | setState s =>
    intro c hRA hLvl
    exact setStateFn_inner cls c s (isRunning_of_ra c hRA) hLvl
  | set e =>
    intro c hRA hLvl
    exact setOp_inner cls c e hRA hLvl
  | action k body ih =>
    intro c hRA hLvl
    simp only [runCmd]
    split
    next => exact ⟨rfl, ⟨rfl, rfl, rfl, rfl, rfl⟩⟩
    next =>
      split
      next => exact ⟨rfl, ⟨rfl, rfl, rfl, rfl, rfl⟩⟩
      next =>
        have hinc := doIncrease_fst (O := O) c
        have hincs := doIncrease_snd_of_ne_zero (O := O) c (by omega)
        obtain ⟨eb, b1, b2, b3, b4, b5⟩ := ih
          { (doIncrease (O := O) c).1 with
            runningActions := k :: (doIncrease (O := O) c).1.runningActions }
          (by simp) (by simp only [hinc]; simp)
        constructor
        · rw [hincs, eb]
          split
          next =>
            rw [doNotify_snd_of_running cls _
                (by apply isRunning_of_ra
                    simp only [b2]
                    simpa [hinc, List.erase_cons_head] using hRA),
              doDecrease_snd_of_two_le _
                (by simp only [doNotify_fst]
                    simp only [b1]
                    simp [hinc]
                    omega)]
            simp
          next =>
            rw [doDecrease_snd_of_two_le _
                (by simp only [b1]
                    simp [hinc]
                    omega)]
            simp
        · refine ⟨?_, ?_, ?_, ?_, ?_⟩ <;>
            (split <;>
              (simp only [doDecrease_fst, doNotify_fst]
               simp only [b1, b2, b3, b4, b5]
               simp [hinc, List.erase_cons_head]))

theorem doIncrease_snd_of_eq_zero (c : Ctrl E S) (h : c.transactionLevel = 0) :
    (doIncrease (O := O) c).2 = c.listeners.map Event.txStart := by
  obtain ⟨env, d, L, st, ra, re, lvl, q, err⟩ := c
  have h0 : lvl = 0 := h
  subst h0
  simp [doIncrease]

theorem doDecrease_snd_of_eq_one (c : Ctrl E S) (h : c.transactionLevel = 1) :
    (doDecrease (O := O) c).2 = c.listeners.map Event.txEnd := by
  obtain ⟨env, d, L, st, ra, re, lvl, q, err⟩ := c
  have h0 : lvl = 1 := h
  subst h0
  simp [doDecrease]

theorem doNotify_snd_all_change (cls : CtrlClass E S O) (c : Ctrl E S) :
    ∀ ev ∈ (doNotify cls c).2, ev.isChange = true := by
  unfold doNotify
  split
  · simp
  · intro ev hev
    simp only [List.mem_map] at hev
    obtain ⟨l, _, rfl⟩ := hev
    rfl

theorem doNotify_snd_of_not_running (cls : CtrlClass E S O) (c : Ctrl E S)
    (h : isRunning c = false) :
    (doNotify cls c).2
      = c.listeners.map (fun l => Event.change l (cls.output c.env c.state)) := by
  simp [doNotify, h]

theorem isRunning_false_of (c : Ctrl E S) (h1 : c.runningActions = [])
    (h2 : c.runningEnv = false) : isRunning c = false := by
  simp [isRunning, h1, h2]

theorem doEnvUpdate_didEnvChange (cls : CtrlClass E S O) (c : Ctrl E S) (e : E) :
    (doEnvUpdate cls c e).didEnvChange = cls.doesEnvDiffer c.env e := by
  rcases hw : cls.envWillUpdate with _ | hook <;>
    simp only [doEnvUpdate, hw] <;> split <;> try split
  all_goals simp_all

theorem doEnvUpdate_env_of_differ (cls : CtrlClass E S O) (c : Ctrl E S) (e : E)
    (h : cls.doesEnvDiffer c.env e = true) : (doEnvUpdate cls c e).ctrl.env = e := by
  rcases hw : cls.envWillUpdate with _ | hook <;>
    simp only [doEnvUpdate, hw, h, if_true] <;> try split
  all_goals rfl

theorem bracket_tail_notify (cls : CtrlClass E S O) (c3 : Ctrl E S) (L : List Nat)
    (hra : c3.runningActions = []) (hre : c3.runningEnv = false)
    (hlvl : c3.transactionLevel = 1) (hL : c3.listeners = L) :
    ∃ mid, L.map Event.txStart ++ [] ++ (doNotify cls c3).2
        ++ (doDecrease (O := O) (doNotify cls c3).1).2
        = L.map Event.txStart ++ mid ++ L.map Event.txEnd ∧
      ∀ ev ∈ mid, ev.isChange = true := by
  refine ⟨c3.listeners.map (fun l => Event.change l (cls.output c3.env c3.state)), ?_, ?_⟩
  · rw [doNotify_snd_of_not_running cls c3 (isRunning_false_of c3 hra hre),
      doDecrease_snd_of_eq_one _ (by rw [doNotify_fst]; simpa using hlvl),
      doNotify_fst]
    simp [hL]
  · intro ev hev
    simp only [List.mem_map] at hev
    obtain ⟨l, _, rfl⟩ := hev
    rfl

theorem bracket_tail_silent (cls : CtrlClass E S O) (c3 : Ctrl E S) (L : List Nat)
    (hlvl : c3.transactionLevel = 1) (hL : c3.listeners = L) :
    ∃ mid, L.map Event.txStart ++ [] ++ ([] : List (Event O))
        ++ (doDecrease (O := O) c3).2
        = L.map Event.txStart ++ mid ++ L.map Event.txEnd ∧
      ∀ ev ∈ mid, ev.isChange = true := by
  refine ⟨[], ?_, by simp⟩
  rw [doDecrease_snd_of_eq_one _ hlvl]
  simp [hL]

/-- C4. For every controller and every nesting of set, action and setState
calls started from a quiescent instance (transaction level zero, nothing
running): the emitted trace is either empty or exactly one transactionStart
per listener (the level zero to one transition), then only change
deliveries, then exactly one transactionEnd per listener (the level one to
zero transition) — so every change delivery happens strictly inside the
bracket of its outermost transaction. -/
theorem c4_transaction_bracket (cls : CtrlClass E S O)
    (env : E) (d : Bool) (L : List Nat) (s : S) (q : Bool) (err : Nat)
    (cmd : Cmd E S) (hEntry : cmd.isEntry = true) :
    (runCmd cls cmd ⟨env, d, L, s, [], false, 0, q, err⟩).2 = [] ∨
    ∃ mid, (runCmd cls cmd ⟨env, d, L, s, [], false, 0, q, err⟩).2
        = L.map Event.txStart ++ mid ++ L.map Event.txEnd ∧
      ∀ ev ∈ mid, ev.isChange = true := by
  cases cmd with
  | skip => simp [Cmd.isEntry] at hEntry
  | seq a b => simp [Cmd.isEntry] at hEntry
  | setState s1 =>
    by_cases hd : d = true
    · subst hd
      left
      simp [runCmd, setStateFn]
    · have hd0 : d = false := by simpa using hd
      subst hd0
      by_cases hdiff : cls.doesStateDiffer s s1 = true
      · right
        refine ⟨L.map (fun l => Event.change l (cls.output env s1)), ?_, ?_⟩
        · simp [runCmd, setStateFn, doStateUpdate, hdiff, doIncrease, doNotify, isRunning,
            doDecrease]
        · intro ev hev
          simp only [List.mem_map] at hev
          obtain ⟨l, _, rfl⟩ := hev
          rfl
      · left
        simp [runCmd, setStateFn, doStateUpdate, hdiff]
  | set e1 =>
    by_cases hd : d = true
    · subst hd
      left
      simp [runCmd, setOp]
    · have hd0 : d = false := by simpa using hd
      subst hd0
      set c0 : Ctrl E S := ⟨env, false, L, s, [], false, 0, q, err⟩ with hc0
      have hlvl0 : c0.transactionLevel = 0 := by rw [hc0]
      have hra0 : c0.runningActions = [] := by rw [hc0]
      have hre0 : c0.runningEnv = false := by rw [hc0]
      have hLs : c0.listeners = L := by rw [hc0]
      have hdstr : c0.isDestroyed = false := by rw [hc0]
      have henv0 : c0.env = env := by rw [hc0]
      have hinc := doIncrease_fst (O := O) c0
      have hincs := doIncrease_snd_of_eq_zero (O := O) c0 hlvl0
      have hlvl1 : (doIncrease (O := O) c0).1.transactionLevel = 1 := by rw [hinc]
      have hra1 : (doIncrease (O := O) c0).1.runningActions = [] := by rw [hinc]
      have hre1 : (doIncrease (O := O) c0).1.runningEnv = false := by rw [hinc]
      have hL1 : (doIncrease (O := O) c0).1.listeners = L := by rw [hinc]
      have henv1 : (doIncrease (O := O) c0).1.env = env := by rw [hinc]
      obtain ⟨hue, g1, g2, g3, g4, g5⟩ :=
        doEnvUpdate_inner cls (doIncrease (O := O) c0).1 e1 (by omega)
      have hdc := doEnvUpdate_didEnvChange cls (doIncrease (O := O) c0).1 e1
      rw [henv1] at hdc
      have hnr : isRunning (doEnvUpdate cls (doIncrease (O := O) c0).1 e1).ctrl = false :=
        isRunning_false_of _ (by rw [g2]; exact hra1) (by rw [g3]; exact hre1)
      have hLr : (doEnvUpdate cls (doIncrease (O := O) c0).1 e1).ctrl.listeners = L := by
        rw [g4]; exact hL1
      have hlvlr : (doEnvUpdate cls (doIncrease (O := O) c0).1 e1).ctrl.transactionLevel = 1 := by
        rw [g1]; exact hlvl1
      by_cases hdiff : cls.doesEnvDiffer env e1 = true
      · have hdct : (doEnvUpdate cls (doIncrease (O := O) c0).1 e1).didEnvChange = true := by
          rw [hdc]; exact hdiff
        right
        refine ⟨(doNotify cls (doEnvUpdate cls (doIncrease (O := O) c0).1 e1).ctrl).2, ?_,
          doNotify_snd_all_change _ _⟩
        simp only [runCmd, setOp, hdstr, Bool.false_eq_true, if_false]
        rw [hincs, hue, hdct, hLs]
        simp only [if_true]
        rw [doDecrease_snd_of_eq_one _ (by rw [doNotify_fst]; simpa using hlvlr)]
        rw [doNotify_fst]
        simp [hLr]
      · have hdcf : (doEnvUpdate cls (doIncrease (O := O) c0).1 e1).didEnvChange = false := by
          rw [hdc]; simpa using hdiff
        right
        refine ⟨[], ?_, by simp⟩
        simp only [runCmd, setOp, hdstr, Bool.false_eq_true, if_false]
        rw [hincs, hue, hdcf, hLs]
        simp only [Bool.false_eq_true, if_false]
        rw [doDecrease_snd_of_eq_one _ hlvlr]
        simp [hLr]
  | action k1 body =>
    by_cases hd : d = true
    · subst hd
      left
      simp [runCmd]
    · have hd0 : d = false := by simpa using hd
      subst hd0
      set c0 : Ctrl E S := ⟨env, false, L, s, [], false, 0, q, err⟩ with hc0
      have hlvl0 : c0.transactionLevel = 0 := by rw [hc0]
      have hra0 : c0.runningActions = [] := by rw [hc0]
      have hre0 : c0.runningEnv = false := by rw [hc0]
      have hLs : c0.listeners = L := by rw [hc0]
      have hdstr : c0.isDestroyed = false := by rw [hc0]
      have hinc := doIncrease_fst (O := O) c0
      have hincs := doIncrease_snd_of_eq_zero (O := O) c0 hlvl0
      have hlvl1 : (doIncrease (O := O) c0).1.transactionLevel = 1 := by rw [hinc]
      have hra1 : (doIncrease (O := O) c0).1.runningActions = [] := by rw [hinc]
      have hre1 : (doIncrease (O := O) c0).1.runningEnv = false := by rw [hinc]
      have hL1 : (doIncrease (O := O) c0).1.listeners = L := by rw [hinc]
      obtain ⟨eb, b1, b2, b3, b4, b5⟩ := runCmd_inner cls body
        { (doIncrease (O := O) c0).1 with
          runningActions := k1 :: (doIncrease (O := O) c0).1.runningActions }
        (by simp) (by simp only [hinc]; simp)
      have hraer : ((runCmd cls body
          { (doIncrease (O := O) c0).1 with
            runningActions := k1 :: (doIncrease (O := O) c0).1.runningActions }).1.runningActions.erase k1)
          = [] := by
        rw [b2]
        simp [hra1, List.erase_cons_head]
      have hre3 : (runCmd cls body
          { (doIncrease (O := O) c0).1 with
            runningActions := k1 :: (doIncrease (O := O) c0).1.runningActions }).1.runningEnv
          = false := by
        rw [b3]; simpa using hre1
      have hlvl3 : (runCmd cls body
          { (doIncrease (O := O) c0).1 with
            runningActions := k1 :: (doIncrease (O := O) c0).1.runningActions }).1.transactionLevel
          = 1 := by
        rw [b1]; simpa using hlvl1
      have hL3 : (runCmd cls body
          { (doIncrease (O := O) c0).1 with
            runningActions := k1 :: (doIncrease (O := O) c0).1.runningActions }).1.listeners
          = L := by
        rw [b4]; simpa using hL1
      simp only [runCmd, hdstr, Bool.false_eq_true, if_false, hra0, List.not_mem_nil,
        if_false, List.mem_nil_iff]
      rw [hincs, eb, hLs]
      split
      next hq =>
        exact Or.inr (bracket_tail_notify cls _ L hraer hre3 hlvl3 hL3)
      next hq =>
        exact Or.inr (bracket_tail_silent cls _ L hlvl3 hL3)

theorem filter_isChange_txStart (L : List Nat) :
    (L.map (Event.txStart (O := O))).filter Event.isChange = [] := by
  induction L with
  | nil => rfl
  | cons a l ih => simpa [Event.isChange] using ih

theorem filter_isChange_txEnd (L : List Nat) :
    (L.map (Event.txEnd (O := O))).filter Event.isChange = [] := by
  induction L with
  | nil => rfl
  | cons a l ih => simpa [Event.isChange] using ih

theorem filter_isChange_changes (L : List Nat) (f : Nat → O) :
    (L.map (fun l => Event.change l (f l))).filter Event.isChange
      = L.map (fun l => Event.change l (f l)) := by
  induction L with
  | nil => rfl
  | cons a l ih => simpa [Event.isChange] using ih

/-- C3. An action whose body performs three setState calls, each reported as
a difference by the state hook, delivers exactly one change event to every
subscriber, carrying the output computed from the third state only; the two
intermediate setState calls produce no separate deliveries. -/
theorem c3_action_coalesces_setState (cls : CtrlClass E S O)
    (env : E) (L : List Nat) (s0 s1 s2 s3 : S) (q : Bool) (err : Nat) (k : String)
    (h1 : cls.doesStateDiffer s0 s1 = true) (h2 : cls.doesStateDiffer s1 s2 = true)
    (h3 : cls.doesStateDiffer s2 s3 = true) :
    ((runCmd cls
        (Cmd.action k
          (Cmd.seq (Cmd.setState s1) (Cmd.seq (Cmd.setState s2) (Cmd.setState s3))))
        ⟨env, false, L, s0, [], false, 0, q, err⟩).2).filter Event.isChange
      = L.map (fun l => Event.change l (cls.output env s3)) := by
  simp only [runCmd, setStateFn, doStateUpdate, doIncrease, doNotify, doDecrease, isRunning,
    logError, h1, h2, h3, List.erase_cons_head]
  simp [List.filter_append, filter_isChange_txStart, filter_isChange_txEnd,
    filter_isChange_changes, List.erase_cons_head, h1, h2, h3]

/-- C8. Invoking an action whose key is already marked running on the same
instance is rejected: one diagnostic is logged, the body is not executed,
nothing is thrown, and the state, env and every other field are left
unchanged by the rejected call — so an action can never synchronously
re-enter itself. -/
theorem c8_action_reentrancy_rejected (cls : CtrlClass E S O) (c : Ctrl E S)
    (k : String) (body : Cmd E S) (hd : c.isDestroyed = false)
    (hk : k ∈ c.runningActions) :
    runCmd cls (Cmd.action k body) c = ({ c with errors := c.errors + 1 }, []) := by
  simp [runCmd, hd, hk, logError]

theorem c8_witness :
    runCmd (⟨0, fun _ _ => true, fun _ _ => true, fun e s => e + s, none⟩ : CtrlClass Nat Nat Nat)
      (Cmd.action ("a") (Cmd.setState 5))
      ⟨0, false, [0], 0, [("a" : String)], false, 1, false, 0⟩
      = (⟨0, false, [0], 0, [("a" : String)], false, 1, false, 1⟩, []) := by
  have h := c8_action_reentrancy_rejected
    (⟨0, fun _ _ => true, fun _ _ => true, fun e s => e + s, none⟩ : CtrlClass Nat Nat Nat)
    ⟨0, false, [0], 0, [("a" : String)], false, 1, false, 0⟩ ("a") (Cmd.setState 5)
    rfl (by simp)
  simpa using h

/-- C7 (amended). After destroy, none of the operations throws and the
stored state stays exactly what it was: set, setState and action calls
log one diagnostic each, change nothing else and deliver no events;
destroy is idempotent; get returns the output of the frozen env and state
without logging; subscribe, without logging, still appends a subscriber
record — which will never be notified, the mutating operations being
no-ops. -/
theorem c7_destroyed_operations (cls : CtrlClass E S O) (c c2 : Ctrl E S)
    (hd : c.isDestroyed = true) (e : E) (s : S) (k : String) (body : Cmd E S) (lid : Nat) :
    setOp cls c e = ({ c with errors := c.errors + 1 }, []) ∧
    setStateFn cls c s = ({ c with errors := c.errors + 1 }, []) ∧
    runCmd cls (Cmd.action k body) c = ({ c with errors := c.errors + 1 }, []) ∧
    destroyOp (destroyOp c2) = destroyOp c2 ∧
    getOp cls c = cls.output c.env c.state ∧
    subscribeOp c lid = { c with listeners := c.listeners ++ [lid] } := by
  refine ⟨?_, ?_, ?_, rfl, rfl, rfl⟩ <;> simp [setOp, setStateFn, runCmd, hd, logError]

theorem c7_witness :
    setOp (⟨0, fun _ _ => true, fun _ _ => true, fun e s => e + s, none⟩ : CtrlClass Nat Nat Nat)
        ⟨3, true, [], 9, [], false, 0, false, 0⟩ 4
      = (⟨3, true, [], 9, [], false, 0, false, 1⟩, []) := by
  have h := c7_destroyed_operations
    (⟨0, fun _ _ => true, fun _ _ => true, fun e s => e + s, none⟩ : CtrlClass Nat Nat Nat)
    ⟨3, true, [], 9, [], false, 0, false, 0⟩ ⟨3, true, [], 9, [], false, 0, false, 1⟩
    rfl 4 9 ("a") Cmd.skip 0
  simpa using h.1

/-- C7 counterexample: on a destroyed controller, subscribe is neither
logged nor a no-op — after destroy then subscribe, the listener set is not
cleared and no diagnostic has been recorded — contradicting the claim that
every post-destruction public operation logs an error and no-ops with the
listener set cleared. -/
theorem c7_counterexample :
    ¬ ((subscribeOp (destroyOp (⟨0, false, [], 0, [], false, 0, false, 0⟩ : Ctrl Nat Nat)) 7).listeners
          = []
        ∧ 0 < (subscribeOp (destroyOp (⟨0, false, [], 0, [], false, 0, false, 0⟩ : Ctrl Nat Nat)) 7).errors) := by
  decide

/-- C5 (amended). set replaces the stored env with the input exactly when
the doesEnvDiffer hook reports a difference — which the default hook
always does — and then get immediately afterwards computes the output
from that input with no staleness. -/
theorem c5_set_replaces_env (cls : CtrlClass E S O) (c : Ctrl E S) (e : E)
    (hd : c.isDestroyed = false) (hdiff : cls.doesEnvDiffer c.env e = true) :
    (setOp cls c e).1.env = e ∧
    getOp cls (setOp cls c e).1 = cls.output e (setOp cls c e).1.state := by
  have hinc := doIncrease_fst (O := O) c
  have henv1 : (doIncrease (O := O) c).1.env = c.env := by rw [hinc]
  have he : (doEnvUpdate cls (doIncrease (O := O) c).1 e).ctrl.env = e :=
    doEnvUpdate_env_of_differ cls _ e (by rw [henv1]; exact hdiff)
  have hmain : (setOp cls c e).1.env = e := by
    simp only [setOp, hd, Bool.false_eq_true, if_false]
    split
    · rw [doDecrease_fst]
      simp [doNotify_fst, he]
    · rw [doDecrease_fst]
      simpa using he
  exact ⟨hmain, by simp only [getOp, hmain]⟩

theorem c5_witness :
    (setOp (⟨0, fun _ _ => true, fun _ _ => true, fun e _ => e, none⟩ : CtrlClass Nat Nat Nat)
        ⟨0, false, [], 0, [], false, 0, false, 0⟩ 5).1.env = 5 ∧
    getOp (⟨0, fun _ _ => true, fun _ _ => true, fun e _ => e, none⟩ : CtrlClass Nat Nat Nat)
        (setOp (⟨0, fun _ _ => true, fun _ _ => true, fun e _ => e, none⟩ : CtrlClass Nat Nat Nat)
          ⟨0, false, [], 0, [], false, 0, false, 0⟩ 5).1
      = (⟨0, fun _ _ => true, fun _ _ => true, fun e _ => e, none⟩ : CtrlClass Nat Nat Nat).output 5
        (setOp (⟨0, fun _ _ => true, fun _ _ => true, fun e _ => e, none⟩ : CtrlClass Nat Nat Nat)
          ⟨0, false, [], 0, [], false, 0, false, 0⟩ 5).1.state :=
  c5_set_replaces_env _ _ 5 rfl rfl

/-- C5 counterexample: with an equality hook reporting no difference, set
does not replace the stored env — after set 1 on a controller whose env is
0 the env is still 0 and get still reflects the old input — contradicting
the claim that set always replaces env even when the hook reports no
difference. -/
theorem c5_counterexample :
    (setOp (⟨0, fun _ _ => false, fun _ _ => true, fun e _ => e, none⟩ : CtrlClass Nat Nat Nat)
        ⟨0, false, [], 0, [], false, 0, false, 0⟩ 1).1.env = 0 ∧
    getOp (⟨0, fun _ _ => false, fun _ _ => true, fun e _ => e, none⟩ : CtrlClass Nat Nat Nat)
        (setOp (⟨0, fun _ _ => false, fun _ _ => true, fun e _ => e, none⟩ : CtrlClass Nat Nat Nat)
          ⟨0, false, [], 0, [], false, 0, false, 0⟩ 1).1 ≠ 1 := by
  exact ⟨rfl, by decide⟩

theorem c3_witness :
    ((runCmd (⟨0, fun _ _ => true, fun _ _ => true, fun e s => e + s, none⟩ : CtrlClass Nat Nat Nat)
        (Cmd.action ("inc")
          (Cmd.seq (Cmd.setState 1) (Cmd.seq (Cmd.setState 2) (Cmd.setState 3))))
        ⟨10, false, [0], 0, [], false, 0, false, 0⟩).2).filter Event.isChange
      = [Event.change 0 13] := by
  have h := c3_action_coalesces_setState
    (⟨0, fun _ _ => true, fun _ _ => true, fun e s => e + s, none⟩ : CtrlClass Nat Nat Nat)
    10 [0] 0 1 2 3 false 0 ("inc") rfl rfl rfl
  simpa using h

theorem c4_witness :
    (runCmd (⟨0, fun _ _ => true, fun _ _ => true, fun e s => e + s, none⟩ : CtrlClass Nat Nat Nat)
        (Cmd.set 7) ⟨10, false, [0], 0, [], false, 0, false, 0⟩).2 = [] ∨
    ∃ mid,
      (runCmd (⟨0, fun _ _ => true, fun _ _ => true, fun e s => e + s, none⟩ : CtrlClass Nat Nat Nat)
          (Cmd.set 7) ⟨10, false, [0], 0, [], false, 0, false, 0⟩).2
        = [0].map Event.txStart ++ mid ++ [0].map Event.txEnd ∧
      ∀ ev ∈ mid, ev.isChange = true :=
  c4_transaction_bracket _ 10 false [0] 0 false 0 (Cmd.set 7) rfl

theorem filter_isChange_doIncrease (c : Ctrl E S) :
    ((doIncrease (O := O) c).2).filter Event.isChange = [] := by
  obtain ⟨env, d, L, st, ra, re, lvl, q, err⟩ := c
  simp only [doIncrease]
  split
  · exact filter_isChange_txStart L
  · rfl

theorem filter_isChange_doDecrease (c : Ctrl E S) :
    ((doDecrease (O := O) c).2).filter Event.isChange = [] := by
  obtain ⟨env, d, L, st, ra, re, lvl, q, err⟩ := c
  simp only [doDecrease]
  split
  · exact filter_isChange_txEnd L
  · rfl

theorem setStateFn_queues (cls : CtrlClass E S O)
    (hS : ∀ a b, cls.doesStateDiffer a b = true) (c : Ctrl E S) (s : S)
    (hra : c.runningActions ≠ []) (hd : c.isDestroyed = false) :
    (setStateFn cls c s).1.notificationIsQueued = true := by
  have h1 : doStateUpdate cls c s = ({ c with state := s }, true) := by
    simp [doStateUpdate, hS]
  simp only [setStateFn, hd, Bool.false_eq_true, if_false, h1]
  rw [doDecrease_fst, doNotify_fst]
  exact isRunning_of_ra _ (by rw [doIncrease_fst]; simpa using hra)

theorem setOp_queues (cls : CtrlClass E S O)
    (hE : ∀ a b, cls.doesEnvDiffer a b = true) (c : Ctrl E S) (e : E)
    (hra : c.runningActions ≠ []) (hd : c.isDestroyed = false) :
    (setOp cls c e).1.notificationIsQueued = true := by
  have hdc : (doEnvUpdate cls (doIncrease (O := O) c).1 e).didEnvChange = true := by
    rw [doEnvUpdate_didEnvChange]; exact hE _ _
  have g2 := (doEnvUpdate_inner cls (doIncrease (O := O) c).1 e
    (by rw [doIncrease_fst]; simp)).2.2.1
  simp only [setOp, hd, Bool.false_eq_true, if_false, hdc, if_true]
  rw [doDecrease_fst, doNotify_fst]
  exact isRunning_of_ra _ (by rw [g2, doIncrease_fst]; simpa using hra)

/-- With hooks that always report a difference, a program performing at
least one direct setState or set call leaves the queued notification flag
set when executed inside an action, and the flag is never cleared there. -/
theorem runCmd_queues (cls : CtrlClass E S O)
    (hS : ∀ a b, cls.doesStateDiffer a b = true)
    (hE : ∀ a b, cls.doesEnvDiffer a b = true) (cmd : Cmd E S) :
    ∀ c : Ctrl E S, c.runningActions ≠ [] → 1 ≤ c.transactionLevel → c.isDestroyed = false →
      ((cmd.mutatesDirectly = true → (runCmd cls cmd c).1.notificationIsQueued = true) ∧
       (c.notificationIsQueued = true → (runCmd cls cmd c).1.notificationIsQueued = true)) := by
  induction cmd with
  | skip => exact fun c _ _ _ => ⟨by simp [Cmd.mutatesDirectly], fun h => h⟩
  | seq a b iha ihb =>
    intro c hra hlvl hd
    obtain ⟨ea, a1, a2, a3, a4, a5⟩ := runCmd_inner cls a c hra hlvl
    have hra2 : (runCmd cls a c).1.runningActions ≠ [] := by rw [a2]; exact hra
    have hlvl2 : 1 ≤ (runCmd cls a c).1.transactionLevel := by rw [a1]; exact hlvl
    have hd2 : (runCmd cls a c).1.isDestroyed = false := by rw [a5]; exact hd
    have hunf : (runCmd cls (Cmd.seq a b) c).1 = (runCmd cls b (runCmd cls a c).1).1 := rfl
    rw [hunf]
    constructor
    · intro hmut
      simp only [Cmd.mutatesDirectly, Bool.or_eq_true] at hmut
      rcases hmut with hmut | hmut
      · exact (ihb _ hra2 hlvl2 hd2).2 ((iha c hra hlvl hd).1 hmut)
      · exact (ihb _ hra2 hlvl2 hd2).1 hmut
    · intro hq
      exact (ihb _ hra2 hlvl2 hd2).2 ((iha c hra hlvl hd).2 hq)
  | setState s =>
    intro c hra hlvl hd
    have h := setStateFn_queues cls hS c s hra hd
    exact ⟨fun _ => h, fun _ => h⟩
  | set e =>
    intro c hra hlvl hd
    have h := setOp_queues cls hE c e hra hd
    exact ⟨fun _ => h, fun _ => h⟩
  | action k body ih =>
    intro c hra hlvl hd
    refine ⟨by simp [Cmd.mutatesDirectly], ?_⟩
    intro hq
    simp only [runCmd, hd, Bool.false_eq_true, if_false]
    split
    next => exact hq
    next hk =>
      have hinc := doIncrease_fst (O := O) c
      have hq2 : ({ (doIncrease (O := O) c).1 with
          runningActions := k :: (doIncrease (O := O) c).1.runningActions
            } : Ctrl E S).notificationIsQueued = true := by
        rw [hinc]; exact hq
      have hmono := (ih { (doIncrease (O := O) c).1 with
          runningActions := k :: (doIncrease (O := O) c).1.runningActions }
        (by simp) (by simp only [hinc]; simp) (by rw [hinc]; exact hd)).2 hq2
      obtain ⟨eb, b1, b2, b3, b4, b5⟩ := runCmd_inner cls body
        { (doIncrease (O := O) c).1 with
          runningActions := k :: (doIncrease (O := O) c).1.runningActions }
        (by simp) (by simp only [hinc]; simp)
      have hra3 : ((runCmd cls body
          { (doIncrease (O := O) c).1 with
            runningActions := k :: (doIncrease (O := O) c).1.runningActions
              }).1.runningActions.erase k) = c.runningActions := by
        rw [b2]
        simp only [hinc]
        simp [List.erase_cons_head]
      rw [doDecrease_queued, if_pos hmono, doNotify_queued]
      exact isRunning_of_ra _ (by simpa [hra3] using hra)

/-- With hooks that always report sameness, no change event is ever emitted
and the queued notification flag stays clear. -/
theorem runCmd_no_change (cls : CtrlClass E S O)
    (hS : ∀ a b, cls.doesStateDiffer a b = false)
    (hE : ∀ a b, cls.doesEnvDiffer a b = false) (cmd : Cmd E S) :
    ∀ c : Ctrl E S, c.notificationIsQueued = false →
      ((runCmd cls cmd c).2.filter Event.isChange = [] ∧
       (runCmd cls cmd c).1.notificationIsQueued = false) := by
  induction cmd with
  | skip => exact fun c h => ⟨rfl, h⟩
  | seq a b iha ihb =>
    intro c hq
    obtain ⟨fa, qa⟩ := iha c hq
    obtain ⟨fb, qb⟩ := ihb (runCmd cls a c).1 qa
    have hunf : runCmd cls (Cmd.seq a b) c
        = ((runCmd cls b (runCmd cls a c).1).1,
           (runCmd cls a c).2 ++ (runCmd cls b (runCmd cls a c).1).2) := rfl
    rw [hunf]
    exact ⟨by simp [List.filter_append, fa, fb], qb⟩
  | setState s =>
    intro c hq
    by_cases hd : c.isDestroyed = true
    · exact ⟨by simp [runCmd, setStateFn, hd], by simpa [runCmd, setStateFn, hd, logError] using hq⟩
    · have hd2 : c.isDestroyed = false := by simpa using hd
      exact ⟨by simp [runCmd, setStateFn, doStateUpdate, hS, hd2],
        by simpa [runCmd, setStateFn, doStateUpdate, hS, hd2] using hq⟩
  | set e =>
    intro c hq
    by_cases hd : c.isDestroyed = true
    · exact ⟨by simp [runCmd, setOp, hd], by simpa [runCmd, setOp, hd, logError] using hq⟩
    · have hd2 : c.isDestroyed = false := by simpa using hd
      have hre : doEnvUpdate cls (doIncrease (O := O) c).1 e
          = ⟨(doIncrease (O := O) c).1, [], false, false⟩ := by
        simp [doEnvUpdate,
          (show cls.doesEnvDiffer (doIncrease (O := O) c).1.env e = false from hE _ _)]
      refine ⟨?_, ?_⟩ <;>
        simp [runCmd, setOp, hd2, hre, List.filter_append, filter_isChange_doIncrease,
          filter_isChange_doDecrease, doDecrease_queued, doIncrease_queued, hq]
  | action k body ih =>
    intro c hq
    by_cases hd : c.isDestroyed = true
    · exact ⟨by simp [runCmd, hd], by simpa [runCmd, hd, logError] using hq⟩
    · have hd2 : c.isDestroyed = false := by simpa using hd
      by_cases hk : k ∈ c.runningActions
      · exact ⟨by simp [runCmd, hd2, hk], by simpa [runCmd, hd2, hk, logError] using hq⟩
      · have hq2 : ({ (doIncrease (O := O) c).1 with
            runningActions := k :: (doIncrease (O := O) c).1.runningActions
              } : Ctrl E S).notificationIsQueued = false := by
          rw [doIncrease_fst]; exact hq
        obtain ⟨fb, qb⟩ := ih
          { (doIncrease (O := O) c).1 with
            runningActions := k :: (doIncrease (O := O) c).1.runningActions } hq2
        have hneg : ¬ ((runCmd cls body
            { (doIncrease (O := O) c).1 with
              runningActions := k :: (doIncrease (O := O) c).1.runningActions
                }).1.notificationIsQueued = true) := by
          rw [qb]; exact Bool.false_ne_true
        constructor
        · simp only [runCmd, hd2, Bool.false_eq_true, if_false, hk]
          rw [if_neg hneg]
          simp only [List.filter_append]
          rw [fb]
          simp [filter_isChange_doIncrease, filter_isChange_doDecrease]
        · simp only [runCmd, hd2, Bool.false_eq_true, if_false, hk]
          rw [if_neg hneg, doDecrease_queued]
          exact qb

theorem filter_bracket_after_notify (cls : CtrlClass E S O) (c3 : Ctrl E S) (L : List Nat)
    (hra : c3.runningActions = []) (hre : c3.runningEnv = false) (hL : c3.listeners = L) :
    (L.map Event.txStart ++ [] ++ (doNotify cls c3).2
        ++ (doDecrease (O := O) (doNotify cls c3).1).2).filter Event.isChange
      = L.map (fun l => Event.change l (cls.output c3.env c3.state)) := by
  rw [doNotify_snd_of_not_running cls c3 (isRunning_false_of c3 hra hre)]
  simp [List.filter_append, filter_isChange_txStart, filter_isChange_changes, hL,
    filter_isChange_doDecrease]

theorem setOp_quiescent_differ_snd (cls : CtrlClass E S O)
    (env : E) (L : List Nat) (s : S) (q : Bool) (err : Nat) (e : E)
    (hdiff : cls.doesEnvDiffer env e = true) :
    ∃ o, (setOp cls ⟨env, false, L, s, [], false, 0, q, err⟩ e).2
      = L.map Event.txStart ++ L.map (fun l => Event.change l o) ++ L.map Event.txEnd := by
  set c0 : Ctrl E S := ⟨env, false, L, s, [], false, 0, q, err⟩ with hc0
  have hlvl0 : c0.transactionLevel = 0 := by rw [hc0]
  have hLs : c0.listeners = L := by rw [hc0]
  have hdstr : c0.isDestroyed = false := by rw [hc0]
  have hinc := doIncrease_fst (O := O) c0
  have hincs := doIncrease_snd_of_eq_zero (O := O) c0 hlvl0
  have hlvl1 : (doIncrease (O := O) c0).1.transactionLevel = 1 := by rw [hinc]
  have hra1 : (doIncrease (O := O) c0).1.runningActions = [] := by rw [hinc]
  have hre1 : (doIncrease (O := O) c0).1.runningEnv = false := by rw [hinc]
  have hL1 : (doIncrease (O := O) c0).1.listeners = L := by rw [hinc]
  have henv1 : (doIncrease (O := O) c0).1.env = env := by rw [hinc]
  obtain ⟨hue, g1, g2, g3, g4, g5⟩ :=
    doEnvUpdate_inner cls (doIncrease (O := O) c0).1 e (by omega)
  have hdct : (doEnvUpdate cls (doIncrease (O := O) c0).1 e).didEnvChange = true := by
    rw [doEnvUpdate_didEnvChange, henv1]; exact hdiff
  have hnr : isRunning (doEnvUpdate cls (doIncrease (O := O) c0).1 e).ctrl = false :=
    isRunning_false_of _ (by rw [g2]; exact hra1) (by rw [g3]; exact hre1)
  have hLr : (doEnvUpdate cls (doIncrease (O := O) c0).1 e).ctrl.listeners = L := by
    rw [g4]; exact hL1
  have hlvlr : (doEnvUpdate cls (doIncrease (O := O) c0).1 e).ctrl.transactionLevel = 1 := by
    rw [g1]; exact hlvl1
  refine ⟨cls.output (doEnvUpdate cls (doIncrease (O := O) c0).1 e).ctrl.env
    (doEnvUpdate cls (doIncrease (O := O) c0).1 e).ctrl.state, ?_⟩
  simp only [setOp, hdstr, Bool.false_eq_true, if_false, hdct, if_true]
  rw [hincs, hue, hLs, doNotify_snd_of_not_running cls _ hnr,
    doDecrease_snd_of_eq_one _ (by rw [doNotify_fst]; simpa using hlvlr), doNotify_fst]
  simp [hLr]

/-- C6 (amended). With both equality hooks always reporting a difference,
every set call delivers exactly one change to every subscriber, and so
does every action call whose body directly performs at least one setState
or set call; with hooks always reporting sameness no set or action call
delivers any change, and set still fires the transactionStart and
transactionEnd bracket around the no-op. -/
theorem c6_roundtrip_notifications (clsD clsS : CtrlClass E S O)
    (hDs : ∀ a b, clsD.doesStateDiffer a b = true)
    (hDe : ∀ a b, clsD.doesEnvDiffer a b = true)
    (hSs : ∀ a b, clsS.doesStateDiffer a b = false)
    (hSe : ∀ a b, clsS.doesEnvDiffer a b = false)
    (env e : E) (L : List Nat) (s : S) (err : Nat) (k : String) (body : Cmd E S)
    (hbody : body.mutatesDirectly = true) :
    (∃ o, ((setOp clsD ⟨env, false, L, s, [], false, 0, false, err⟩ e).2).filter Event.isChange
        = L.map (fun l => Event.change l o)) ∧
    (∃ o, ((runCmd clsD (Cmd.action k body)
          ⟨env, false, L, s, [], false, 0, false, err⟩).2).filter Event.isChange
        = L.map (fun l => Event.change l o)) ∧
    (setOp clsS ⟨env, false, L, s, [], false, 0, false, err⟩ e).2
        = L.map Event.txStart ++ L.map Event.txEnd ∧
    ((runCmd clsS (Cmd.action k body)
        ⟨env, false, L, s, [], false, 0, false, err⟩).2).filter Event.isChange = [] := by
  refine ⟨?_, ?_, ?_, ?_⟩
  · obtain ⟨o, ho⟩ := setOp_quiescent_differ_snd clsD env L s false err e (hDe env e)
    refine ⟨o, ?_⟩
    rw [ho]
    simp [List.filter_append, filter_isChange_txStart, filter_isChange_txEnd,
      filter_isChange_changes]
  · set c0 : Ctrl E S := ⟨env, false, L, s, [], false, 0, false, err⟩ with hc0
    have hlvl0 : c0.transactionLevel = 0 := by rw [hc0]
    have hra0 : c0.runningActions = [] := by rw [hc0]
    have hLs : c0.listeners = L := by rw [hc0]
    have hdstr : c0.isDestroyed = false := by rw [hc0]
    have hinc := doIncrease_fst (O := O) c0
    have hincs := doIncrease_snd_of_eq_zero (O := O) c0 hlvl0
    have hlvl1 : (doIncrease (O := O) c0).1.transactionLevel = 1 := by rw [hinc]
    have hra1 : (doIncrease (O := O) c0).1.runningActions = [] := by rw [hinc]
    have hre1 : (doIncrease (O := O) c0).1.runningEnv = false := by rw [hinc]
    have hL1 : (doIncrease (O := O) c0).1.listeners = L := by rw [hinc]
    obtain ⟨eb, b1, b2, b3, b4, b5⟩ := runCmd_inner clsD body
      { (doIncrease (O := O) c0).1 with
        runningActions := k :: (doIncrease (O := O) c0).1.runningActions }
      (by simp) (by simp only [hinc]; simp)
    have hqT := (runCmd_queues clsD hDs hDe body
      { (doIncrease (O := O) c0).1 with
        runningActions := k :: (doIncrease (O := O) c0).1.runningActions }
      (by simp) (by simp only [hinc]; simp) (by rw [hinc])).1 hbody
    have hraer : ((runCmd clsD body
        { (doIncrease (O := O) c0).1 with
          runningActions := k :: (doIncrease (O := O) c0).1.runningActions
            }).1.runningActions.erase k) = [] := by
      rw [b2]
      simp only [hinc]
      simp [List.erase_cons_head]
    have hre3 : (runCmd clsD body
        { (doIncrease (O := O) c0).1 with
          runningActions := k :: (doIncrease (O := O) c0).1.runningActions }).1.runningEnv
        = false := by
      rw [b3]; exact hre1
    have hL3 : (runCmd clsD body
        { (doIncrease (O := O) c0).1 with
          runningActions := k :: (doIncrease (O := O) c0).1.runningActions }).1.listeners
        = L := by
      rw [b4]; exact hL1
    simp only [runCmd, hdstr, Bool.false_eq_true, if_false, hra0, List.not_mem_nil,
      if_false, List.mem_nil_iff]
    rw [hincs, eb, hLs, if_pos hqT]
    exact ⟨_, filter_bracket_after_notify clsD _ L hraer hre3 hL3⟩
  · set c0 : Ctrl E S := ⟨env, false, L, s, [], false, 0, false, err⟩ with hc0
    have hlvl0 : c0.transactionLevel = 0 := by rw [hc0]
    have hLs : c0.listeners = L := by rw [hc0]
    have hdstr : c0.isDestroyed = false := by rw [hc0]
    have hinc := doIncrease_fst (O := O) c0
    have hincs := doIncrease_snd_of_eq_zero (O := O) c0 hlvl0
    have hlvl1 : (doIncrease (O := O) c0).1.transactionLevel = 1 := by rw [hinc]
    have hL1 : (doIncrease (O := O) c0).1.listeners = L := by rw [hinc]
    have henv1 : (doIncrease (O := O) c0).1.env = env := by rw [hinc]
    obtain ⟨hue, g1, g2, g3, g4, g5⟩ :=
      doEnvUpdate_inner clsS (doIncrease (O := O) c0).1 e (by omega)
    have hdcf : (doEnvUpdate clsS (doIncrease (O := O) c0).1 e).didEnvChange = false := by
      rw [doEnvUpdate_didEnvChange, henv1]; exact hSe env e
    have hLr : (doEnvUpdate clsS (doIncrease (O := O) c0).1 e).ctrl.listeners = L := by
      rw [g4]; exact hL1
    have hlvlr : (doEnvUpdate clsS (doIncrease (O := O) c0).1 e).ctrl.transactionLevel = 1 := by
      rw [g1]; exact hlvl1
    simp only [setOp, hdstr, Bool.false_eq_true, if_false]
    rw [hincs, hue, hdcf, hLs]
    simp only [Bool.false_eq_true, if_false]
    rw [doDecrease_snd_of_eq_one _ hlvlr]
    simp [hLr]
  · exact (runCmd_no_change clsS hSs hSe (Cmd.action k body) _ rfl).1

/-- C1. When a bound controller fires its onChange callback at the host,
the binding layer throws a protocol violation exactly when the transaction
level is zero or the flush level is non-zero; otherwise it records the new
output under that key, marks a change pending, and throws nothing. -/
theorem c1_handleChange_protocol (h : Host O) (k : String) (o : O) :
    ((h.transactionLevel = 0 ∨ h.flushLevel ≠ 0) ↔ ∃ e, handleChange h k o = Except.error e) ∧
    (h.transactionLevel ≠ 0 → h.flushLevel = 0 →
      handleChange h k o
        = Except.ok { h with changesExist := true, outputs := updateOutput h.outputs k o }) := by
  constructor
  · constructor
    · intro hcase
      unfold handleChange
      rcases hcase with h0 | hf
      · rw [if_pos h0]
        exact ⟨_, rfl⟩
      · by_cases h0 : h.transactionLevel = 0
        · rw [if_pos h0]
          exact ⟨_, rfl⟩
        · rw [if_neg h0, if_pos hf]
          exact ⟨_, rfl⟩
    · rintro ⟨e, he⟩
      by_contra hcon
      push_neg at hcon
      obtain ⟨h0, hf⟩ := hcon
      unfold handleChange at he
      rw [if_neg h0, if_neg (by simpa using hf)] at he
      exact Except.noConfusion he
  · intro h0 hf
    unfold handleChange
    rw [if_neg h0, if_neg (by simp [hf])]

theorem c1_witness :
    handleChange (⟨1, 0, [], false, fun _ => none⟩ : Host Nat) ("k") 5
      = Except.ok { (⟨1, 0, [], false, fun _ => none⟩ : Host Nat) with
          changesExist := true,
          outputs := updateOutput (fun _ => none) ("k") 5 } :=
  (c1_handleChange_protocol (⟨1, 0, [], false, fun _ => none⟩ : Host Nat) ("k") 5).2
    (by decide) rfl

/-- C2. In the overlapping two-controller scenario — A starts, A emits, B
starts, B emits, A ends, B ends — no flush occurs before B ends, the step
in which B ends performs exactly one coalesced flush followed by the two
release tokens in FIFO order, and the unlock queue is left cleared; and in
general, when the transaction level reaches zero with no change pending,
no flush occurs and no token is released. -/
theorem c2_overlapping_transactions_coalesce :
    runHostEvents (⟨0, 0, [], false, fun _ => none⟩ : Host Nat)
        [HostStep.txStart, HostStep.change ("a") 1, HostStep.txStart, HostStep.change ("b") 2,
         HostStep.txEnd 1] = some [] ∧
    runHostEvents (⟨0, 0, [], false, fun _ => none⟩ : Host Nat)
        [HostStep.txStart, HostStep.change ("a") 1, HostStep.txStart, HostStep.change ("b") 2,
         HostStep.txEnd 1, HostStep.txEnd 2]
      = some [HEvent.flush, HEvent.unlock 1, HEvent.unlock 2] ∧
    runHostQueue (⟨0, 0, [], false, fun _ => none⟩ : Host Nat)
        [HostStep.txStart, HostStep.change ("a") 1, HostStep.txStart, HostStep.change ("b") 2,
         HostStep.txEnd 1, HostStep.txEnd 2] = some [] ∧
    (∀ (h : Host O) (tok : Nat), h.transactionLevel = 1 → h.changesExist = false →
      (handleTransactionEnd h tok).2 = []) := by
  refine ⟨rfl, rfl, rfl, ?_⟩
  intro h tok h1 hce
  obtain ⟨lvl, fl, uq, ce, outs⟩ := h
  have hl : lvl = 1 := h1
  have hc : ce = false := hce
  subst hl
  subst hc
  simp only [handleTransactionEnd]
  split_ifs <;> simp_all

theorem c2_witness :
    (handleTransactionEnd (⟨1, 0, [], false, fun _ => none⟩ : Host Nat) 9).2 = [] :=
  (c2_overlapping_transactions_coalesce (O := Nat)).2.2.2
    (⟨1, 0, [], false, fun _ => none⟩ : Host Nat) 9 rfl rfl

/-- C9 (code bug). With zero declared keys, instantiateDefaultControllers
calls console.warning; the standard console object has warn but no
warning method — the repository itself uses console.warn elsewhere — so
the call throws a TypeError instead of emitting a warning, and setup
fails rather than returning a usable decorator. -/
theorem c9_zero_keys_throws :
    instantiateDefaultControllersSetup []
      = Except.error ("TypeError: console.warning is not a function") := by
  rfl

theorem objInsert_source_eq : objInsert ([] : List String) ("source") = [("source")] := by
  simp [objInsert]

theorem objInsert_source_nodup (key : String) :
    (objInsert (objInsert [] ("source")) key).Nodup := by
  rw [objInsert_source_eq]
  unfold objInsert
  split_ifs with hk
  · simp
  · simp only [List.mem_singleton] at hk
    refine List.nodup_cons.mpr ⟨?_, List.nodup_singleton _⟩
    intro hc
    exact hk (List.mem_singleton.mp hc).symm

theorem objInsert_source_mem (key : String) :
    (("source") ∈ objInsert (objInsert [] ("source")) key) ∧
    (∀ x, x ∈ objInsert (objInsert [] ("source")) key ↔ (x = ("source") ∨ x = key)) := by
  rw [objInsert_source_eq]
  unfold objInsert
  split_ifs with hk
  · simp only [List.mem_singleton] at hk
    subst hk
    constructor
    · simp
    · intro x
      simp
  · constructor
    · simp
    · intro x
      simp

theorem objInsert_source_len (key : String) :
    (objInsert (objInsert [] ("source")) key).length ≤ 2 := by
  rw [objInsert_source_eq]
  unfold objInsert
  split_ifs <;> simp

theorem computeModes_twoPane_of_none (m : Int) (p ds : String) :
    computeModes none m p ds
      = objInsert (objInsert [] ("source")) (if p = ("source") then ds else p) := rfl

theorem computeModes_twoPane_of_wide (v m : Int) (p ds : String) (hv : ¬ v ≤ m) :
    computeModes (some v) m p ds
      = objInsert (objInsert [] ("source")) (if p = ("source") then ds else p) := by
  simp [computeModes, hv]

theorem computeModes_nodup (w : Option Int) (m : Int) (p ds : String) :
    (computeModes w m p ds).Nodup := by
  rcases w with _ | v
  · rw [computeModes_twoPane_of_none]
    exact objInsert_source_nodup _
  · by_cases hv : v ≤ m
    · simp [computeModes, objInsert, hv]
    · rw [computeModes_twoPane_of_wide v m p ds hv]
      exact objInsert_source_nodup _

theorem sortedJoin_eq_of_set_eq (a b : List String) (ha : a.Nodup) (hb : b.Nodup)
    (h : ∀ x, x ∈ a ↔ x ∈ b) : sortedJoin a = sortedJoin b := by
  unfold sortedJoin
  congr 1
  apply List.eq_of_perm_of_sorted (r := fun x y => x ≤ y)
  · exact ((List.perm_insertionSort _ a).trans
      ((List.perm_ext_iff_of_nodup ha hb).mpr h)).trans (List.perm_insertionSort _ b).symm
  · exact List.sorted_insertionSort _ a
  · exact List.sorted_insertionSort _ b

/-- C10. The computed mode key set is exactly the primary mode alone when
the width is known and at most the single pane maximum; otherwise it is
exactly the source pane plus the primary mode, with the default secondary
substituted when the primary already is source — never more than two keys,
and always containing source in the two pane case; and the
SimpleController based recalc notifies its listeners only when the mode
key set actually changed. -/
theorem c10_responsive_modes (width : Option Int) (m : Int) (p ds : String) :
    (∀ v, width = some v → v ≤ m → computeModes width m p ds = [p]) ∧
    ((width = none ∨ ∃ v, width = some v ∧ m < v) →
      (("source") ∈ computeModes width m p ds ∧
       ∀ x, x ∈ computeModes width m p ds ↔
          (x = ("source") ∨ x = (if p = ("source") then ds else p)))) ∧
    (computeModes width m p ds).length ≤ 2 ∧
    (∀ c : RDMC, c.modes.Nodup → (recalc c).2 = true →
      ¬ (∀ x, x ∈ computeModes c.width c.maxSinglePaneWidth c.primary c.defaultSecondary
            ↔ x ∈ c.modes)) := by
  refine ⟨?_, ?_, ?_, ?_⟩
  · rintro v rfl hv
    simp [computeModes, objInsert, hv]
  · rintro (rfl | ⟨v, rfl, hv⟩)
    · rw [computeModes_twoPane_of_none]
      exact ⟨(objInsert_source_mem _).1, (objInsert_source_mem _).2⟩
    · rw [computeModes_twoPane_of_wide v m p ds (by omega)]
      exact ⟨(objInsert_source_mem _).1, (objInsert_source_mem _).2⟩
  · rcases width with _ | v
    · rw [computeModes_twoPane_of_none]
      exact objInsert_source_len _
    · by_cases hv : v ≤ m
      · simp [computeModes, objInsert, hv]
      · rw [computeModes_twoPane_of_wide v m p ds hv]
        exact objInsert_source_len _
  · intro c hnd hnot hiff
    have hnew := computeModes_nodup c.width c.maxSinglePaneWidth c.primary c.defaultSecondary
    have hj := sortedJoin_eq_of_set_eq _ _ hnew hnd hiff
    have heq : modesAreEqual
        (computeModes c.width c.maxSinglePaneWidth c.primary c.defaultSecondary) c.modes
        = true := by
      simp [modesAreEqual, hj]
    rw [recalc, if_pos heq] at hnot
    exact Bool.false_ne_true hnot

theorem c10_witness :
    computeModes (some 500) 999 ("view") ("console") = [("view")] :=
  (c10_responsive_modes (some 500) 999 ("view") ("console")).1 500 rfl (by decide)

/-- C6 counterexample: with hooks that always report a difference, an
action whose body performs no setState delivers no notification at all to
the subscribed listener, so it is not the case that every action call
yields exactly one notification per call. -/
theorem c6_counterexample :
    ((runCmd (⟨0, fun _ _ => true, fun _ _ => true, fun e s => e + s, none⟩ : CtrlClass Nat Nat Nat)
        (Cmd.action ("a") Cmd.skip)
        ⟨10, false, [0], 0, [], false, 0, false, 0⟩).2).filter Event.isChange = [] ∧
    (⟨10, false, [0], 0, [], false, 0, false, 0⟩ : Ctrl Nat Nat).listeners = [0] := by
  decide

theorem c6_witness :
    (setOp (⟨0, fun _ _ => false, fun _ _ => false, fun e s => e + s, none⟩ : CtrlClass Nat Nat Nat)
        ⟨10, false, [0], 0, [], false, 0, false, 0⟩ 5).2
      = List.map Event.txStart [0] ++ List.map Event.txEnd [0] := by
  have h := c6_roundtrip_notifications
    (⟨0, fun _ _ => true, fun _ _ => true, fun e s => e + s, none⟩ : CtrlClass Nat Nat Nat)
    (⟨0, fun _ _ => false, fun _ _ => false, fun e s => e + s, none⟩ : CtrlClass Nat Nat Nat)
    (fun _ _ => rfl) (fun _ _ => rfl) (fun _ _ => rfl) (fun _ _ => rfl)
    10 5 [0] 0 0 ("a") (Cmd.setState 1) rfl
  exact h.2.2.1

end Breadboard
